import Mathlib

/-!
Shallow embedding of `cargo-website/assets/js/animations.js` (an IIFE driving
scroll/viewport animations) and proofs of its specified properties.

Numbers computed by the script (scroll offsets, easing values, speeds) are
modelled as rationals (`ℚ`); displayed counter values, which the script takes
through `Math.floor`, as integers made natural via `Int.toNat`.  DOM state that
the script mutates (inline `style.transform`, `textContent`, class lists,
observer registrations, listener registrations) is modelled as explicit values
that the embedded functions thread through.
-/

set_option autoImplicit false

namespace Animations

/-! ### Speed attribute parsing (`initParallax`, line 55)

`const speed = parseFloat(el.dataset.speed) || 0.1;`

`parseFloat` yields `NaN` when the attribute is missing or does not start with
a number; we model its result as `Option ℚ` with `none` for `NaN`/missing.
JavaScript `||` takes the right operand when the left is falsy, and both `NaN`
and `0` (also `-0`) are falsy, so the fallback `0.1 = 1/10` is used exactly
when the parse failed or produced `0`. -/

def speedOf (parsed : Option ℚ) : ℚ :=
  match parsed with
  | none => 1/10
  | some v => if v = 0 then 1/10 else v

/-! ### Parallax geometry (`handleParallax`, lines 51–68)

For a given scroll position `scrollY = s`:
  `rect.top`       = (document-space top of the element) − s,
so `elementTop = rect.top + scrollY` is the fixed document-space top of the
element.  Then
  `elementCenter  = elementTop + rect.height / 2`
  `viewportCenter = scrollY + window.innerHeight / 2`
  `distance       = viewportCenter - elementCenter`
  `yOffset        = distance * speed`
and the transform is written only when `|distance| < innerHeight * 1.5`. -/

def parallaxDistance (innerHeight elementTop height s : ℚ) : ℚ :=
  (s + innerHeight / 2) - (elementTop + height / 2)

def parallaxYOffset (speed innerHeight elementTop height s : ℚ) : ℚ :=
  parallaxDistance innerHeight elementTop height s * speed

/-- One pass of the per-element body of `handleParallax` at scroll position
`s`: the element's current transform `t` (`none` when no inline transform has
ever been written) is overwritten with the computed offset when the element is
within `1.5 * innerHeight` of the viewport center, and left untouched
otherwise. -/
def parallaxStep (speed innerHeight elementTop height : ℚ)
    (t : Option ℚ) (s : ℚ) : Option ℚ :=
  if |parallaxDistance innerHeight elementTop height s| < innerHeight * (3/2)
  then some (parallaxYOffset speed innerHeight elementTop height s)
  else t

/-! ### Background slide (`handleSlide`, lines 193–201)

`progress = (window.innerHeight - rect.top) / (window.innerHeight + rect.height)`
`offset   = (progress - 0.5) * 30`
with `rect.top = parentTop - s` for the fixed document-space top `parentTop`
of the enclosing section. -/

def slideProgress (innerHeight parentTop parentHeight s : ℚ) : ℚ :=
  (innerHeight - (parentTop - s)) / (innerHeight + parentHeight)

def slideOffset (innerHeight parentTop parentHeight s : ℚ) : ℚ :=
  (slideProgress innerHeight parentTop parentHeight s - 1/2) * 30

/-! ### Counter animation (`initCounterAnimation`, lines 215–244)

```
const elapsed = currentTime - startTime;
const progress = Math.min(elapsed / duration, 1);
const easeOutQuart = 1 - Math.pow(1 - progress, 4);
const currentValue = Math.floor(easeOutQuart * finalValue);
target.textContent = currentValue.toLocaleString();
if (progress < 1) { requestAnimationFrame(updateCounter); }
else { target.textContent = finalValue.toLocaleString(); }
```
`duration` is the constant `2000`; we keep it as a parameter with the
hypothesis `0 < duration` where needed. -/

def easeOutQuart (p : ℚ) : ℚ := 1 - (1 - p) ^ 4

def counterProgress (duration elapsed : ℚ) : ℚ := min (elapsed / duration) 1

/-- One frame of `updateCounter`, as a function of the elapsed time: returns
the value displayed at the end of the frame and whether a further animation
frame is requested.  When `progress = 1` the frame first writes the floored
value and then overwrites it with `finalValue`, so the value displayed at the
end of that frame is `finalValue` and the loop stops. -/
def updateCounter (finalValue : ℕ) (duration elapsed : ℚ) : ℕ × Bool :=
  let progress := counterProgress duration elapsed
  if progress < 1
  then ((⌊easeOutQuart progress * (finalValue : ℚ)⌋).toNat, true)
  else (finalValue, false)

/-! ### Attaching the parallax scroll listener (`initParallax`, lines 44–71)

A parallax element carries the parse result of its `data-speed` attribute and
its fixed document-space geometry.  The whole-document scroll handler updates
the transform of every queried element; per-document transform state is a map
from the element's index in the queried list to its inline transform. -/

structure PElem where
  parsedSpeed : Option ℚ
  elementTop : ℚ
  height : ℚ

/-- Per-element body of `handleParallax` with the speed resolved from the
attribute. -/
def handleParallaxElem (innerHeight : ℚ) (el : PElem) (s : ℚ)
    (t : Option ℚ) : Option ℚ :=
  parallaxStep (speedOf el.parsedSpeed) innerHeight el.elementTop el.height t s

/-- The scroll handler that `initParallax` builds over the queried element
list: applied at scroll position `s`, it updates each element's transform
(indices beyond the list are untouched). -/
def handleParallaxAll (innerHeight : ℚ) (els : List PElem) (s : ℚ)
    (transforms : ℕ → Option ℚ) : ℕ → Option ℚ :=
  fun i =>
    match els.get? i with
    | some el => handleParallaxElem innerHeight el s (transforms i)
    | none => transforms i

/-- A scroll listener, as attached by `window.addEventListener`. -/
abbrev Handler : Type := ℚ → (ℕ → Option ℚ) → (ℕ → Option ℚ)

/-- `initParallax`: returns unchanged when reduced motion is preferred, on
mobile, or when parallax is disabled in `CONFIG`; returns unchanged when the
query matches no element; otherwise appends a fresh `handleParallax` closure
to the document's scroll-listener list.  The function has no guard against
being called again: every call on a non-empty element list appends another
listener. -/
def initParallax (reduced mobile enabled : Bool) (innerHeight : ℚ)
    (els : List PElem) (listeners : List Handler) : List Handler :=
  if reduced || mobile || !enabled then listeners
  else if els.isEmpty then listeners
  else listeners ++ [handleParallaxAll innerHeight els]

/-- `n` successive invocations of the scan/initialization path that attaches
the parallax scroll listener (as `initAll` would perform on repeated calls on
the same document). -/
def scanN (reduced mobile enabled : Bool) (innerHeight : ℚ)
    (els : List PElem) : ℕ → List Handler
  | 0 => []
  | n + 1 => initParallax reduced mobile enabled innerHeight els
      (scanN reduced mobile enabled innerHeight els n)

/-! ### Layout feedback of the applied transform

`getBoundingClientRect` reflects the `translateY` currently applied to the
element.  So with untransformed (layout) document-space top `L` and a current
offset `y` (`0` when no inline transform has ever been written), a handler
pass reads `elementTop = rect.top + scrollY = L + y` and computes
`distance = (s + innerHeight/2) - ((L + y) + height/2)`.  This is the faithful
model of what one listener invocation does to an element's offset, and of what
a second, duplicated listener does to the offset left by the first. -/

/-- One per-element pass of `handleParallax` including the
`getBoundingClientRect` feedback of the currently applied offset `y`. -/
def parallaxPass (speed innerHeight L height s y : ℚ) : ℚ :=
  if |parallaxDistance innerHeight (L + y) height s| < innerHeight * (3/2)
  then parallaxYOffset speed innerHeight (L + y) height s
  else y

/-- `n` handler passes in sequence at the same scroll position `s`: what `n`
duplicated scroll listeners (each attached by one invocation of the scan
path) do to an element's offset on one scroll event. -/
def parallaxPassN (speed innerHeight L height s : ℚ) : ℕ → ℚ → ℚ
  | 0, y => y
  | n + 1, y => parallaxPass speed innerHeight L height s
      (parallaxPassN speed innerHeight L height s n y)

/-! ### Animation-frame throttling (`rafCallback`, lines 28–39)

```
let ticking = false;
return function(...args) {
  if (!ticking) {
    window.requestAnimationFrame(() => { callback.apply(this, args); ticking = false; });
    ticking = true;
  }
};
```
`scheduled` counts the `requestAnimationFrame` calls made since the last
animation-frame callback ran. -/

structure RafState where
  ticking : Bool
  scheduled : ℕ

/-- The wrapped listener, run on one scroll event. -/
def scrollEvent (st : RafState) : RafState :=
  if st.ticking then st else ⟨true, st.scheduled + 1⟩

/-- The animation-frame callback: runs the recomputation and clears `ticking`;
the count of schedulings for the next inter-frame window restarts at `0`. -/
def frameFired (_st : RafState) : RafState := ⟨false, 0⟩

/-- `n` scroll events delivered in sequence. -/
def scrollEvents (st : RafState) : ℕ → RafState
  | 0 => st
  | n + 1 => scrollEvent (scrollEvents st n)

/-! ### Scroll reveal (`initScrollReveal`, lines 100–129)

The `IntersectionObserver` callback receives a batch of entries and adds the
classes `is-visible` and `active` to exactly the targets reported as
intersecting (at threshold `0.1` with root margin `0px 0px -50px 0px`):

```
entries.forEach(entry => {
  if (entry.isIntersecting) { entry.target.classList.add('is-visible', 'active'); }
});
```
Elements are identified by a natural number; an element's state is its class
list. -/

structure Entry where
  elem : ℕ
  isIntersecting : Bool

/-- Effect of one entry on the per-element class lists (`classList.add`
appends; only membership matters below). -/
def revealStep (classes : ℕ → List String) (e : Entry) : ℕ → List String :=
  if e.isIntersecting then
    fun x => if x = e.elem then "is-visible" :: "active" :: classes x else classes x
  else classes

/-- The observer callback over a batch (or any sequence of batches,
flattened) of entries. -/
def revealCallback (entries : List Entry) (classes : ℕ → List String) :
    ℕ → List String :=
  entries.foldl revealStep classes

/-! ### Counter observer (`initCounterAnimation`, lines 215–244)

The callback iterates over the delivered batch of entries; for **every**
intersecting entry it starts the counter animation for the entry's target and
calls `counterObserver.unobserve(target)` — the source has no check that the
target is still observed, and `unobserve` cannot retract entries already in
the delivered batch.  `started` counts how many times each element's counter
animation has been started; `observed` is the observer's current target set
(`unobserve` of an already-removed target is a no-op, as is `erase`). -/

structure CounterState where
  observed : Finset ℕ
  started : ℕ → ℕ

/-- One entry of the delivered batch, processed exactly as the source callback
does: unconditionally on `entry.isIntersecting`. -/
def counterEvent (st : CounterState) (e : Entry) : CounterState :=
  if e.isIntersecting then
    { observed := st.observed.erase e.elem
      started := fun x => if x = e.elem then st.started x + 1 else st.started x }
  else st

/-- One delivered batch: `entries.forEach(...)` over the batch. -/
def runCounterEvents (st : CounterState) (events : List Entry) : CounterState :=
  events.foldl counterEvent st

/-- A sequence of delivered batches. -/
def runBatches (st : CounterState) : List (List Entry) → CounterState
  | [] => st
  | b :: bs => runBatches (runCounterEvents st b) bs

/-- The state set up by `initCounterAnimation`: every queried `[data-counter]`
element observed, no animation started yet. -/
def initCounterState (counters : Finset ℕ) : CounterState :=
  ⟨counters, fun _ => 0⟩

/-- The observer's target set after a batch is processed (the `unobserve`
calls made by the callback). -/
def observedAfter (o : Finset ℕ) (b : List Entry) : Finset ℕ :=
  b.foldl (fun acc e => if e.isIntersecting then acc.erase e.elem else acc) o

/-- `IntersectionObserver` delivery contract for a sequence of batches: each
batch carries records only for targets still observed when the batch is
delivered.  (A batch may still carry several coalesced records for one
target.) -/
def validDelivery : Finset ℕ → List (List Entry) → Bool
  | _, [] => true
  | o, b :: bs =>
      (b.all fun e => decide (e.elem ∈ o)) && validDelivery (observedAfter o b) bs

/-! ### What `initAll` wires up (lines 327–345)

`initAll` runs `initScrollReveal`, `initFloatingAnimations`,
`initSectionEntrance`, then (desktop only) `initParallax`,
`initBackgroundSlide`, `initMagneticButtons`, then `initCounterAnimation` and
`initLineDrawing`.  For each initializer we record the `data-*` attributes its
attached behavior reads: `initParallax` reads `el.dataset.speed`
(`data-speed`, line 55) and `initCounterAnimation` reads
`getAttribute('data-counter')` (line 222); no other initializer reads a data
attribute, and no function in the file touches `data-typing` or implements a
typing effect. -/

def initAllFeatures : List (String × List String) :=
  [("initScrollReveal", []),
   ("initFloatingAnimations", []),
   ("initSectionEntrance", []),
   ("initParallax", ["data-speed"]),
   ("initBackgroundSlide", []),
   ("initMagneticButtons", []),
   ("initCounterAnimation", ["data-counter"]),
   ("initLineDrawing", [])]

/-- All data attributes read by behavior attached during initialization. -/
def attributesRead : List String :=
  (initAllFeatures.map Prod.snd).flatten

/-! ## Helper lemmas -/

theorem easeOutQuart_nonneg {p : ℚ} (h0 : 0 ≤ p) (h1 : p ≤ 1) :
    0 ≤ easeOutQuart p := by
  unfold easeOutQuart
  have hb : (1 - p) ^ 4 ≤ 1 ^ 4 := pow_le_pow_left₀ (by linarith) (by linarith) 4
  simp only [one_pow] at hb
  linarith

theorem easeOutQuart_le_one {p : ℚ} : easeOutQuart p ≤ 1 := by
  unfold easeOutQuart
  have hb : 0 ≤ (1 - p) ^ 4 := by positivity
  linarith

theorem easeOutQuart_mono {p q : ℚ} (hpq : p ≤ q) (h1 : q ≤ 1) :
    easeOutQuart p ≤ easeOutQuart q := by
  unfold easeOutQuart
  have hb : (1 - q) ^ 4 ≤ (1 - p) ^ 4 :=
    pow_le_pow_left₀ (by linarith) (by linarith) 4
  linarith

theorem counterProgress_nonneg {d e : ℚ} (hd : 0 < d) (he : 0 ≤ e) :
    0 ≤ counterProgress d e :=
  le_min (div_nonneg he hd.le) zero_le_one

theorem counterProgress_le_one {d e : ℚ} : counterProgress d e ≤ 1 :=
  min_le_right _ _

theorem counterProgress_mono {d e1 e2 : ℚ} (hd : 0 < d) (h : e1 ≤ e2) :
    counterProgress d e1 ≤ counterProgress d e2 :=
  min_le_min (by gcongr) le_rfl

/-- The displayed value in the running branch never exceeds the target. -/
theorem counter_value_le {T : ℕ} {p : ℚ} :
    (⌊easeOutQuart p * (T : ℚ)⌋).toNat ≤ T := by
  rw [Int.toNat_le]
  calc ⌊easeOutQuart p * (T : ℚ)⌋ ≤ ⌊(T : ℚ)⌋ := by
        apply Int.floor_le_floor
        have := easeOutQuart_le_one (p := p)
        nlinarith [Nat.cast_nonneg (α := ℚ) T]
  _ = (T : ℤ) := Int.floor_natCast T

theorem parallaxPass_in {speed iH L h s y : ℚ}
    (hin : |parallaxDistance iH (L + y) h s| < iH * (3/2)) :
    parallaxPass speed iH L h s y = parallaxYOffset speed iH (L + y) h s := by
  unfold parallaxPass
  rw [if_pos hin]

theorem parallaxPass_out {speed iH L h s y : ℚ}
    (hout : ¬ |parallaxDistance iH (L + y) h s| < iH * (3/2)) :
    parallaxPass speed iH L h s y = y := by
  unfold parallaxPass
  rw [if_neg hout]

theorem scrollEvents_invariant (st : RafState)
    (h1 : st.scheduled ≤ 1) (h2 : st.ticking = false → st.scheduled = 0) :
    ∀ n, (scrollEvents st n).scheduled ≤ 1 ∧
      ((scrollEvents st n).ticking = false → (scrollEvents st n).scheduled = 0) := by
  intro n
  induction n with
  | zero => exact ⟨h1, h2⟩
  | succ k ih =>
    obtain ⟨ih1, ih2⟩ := ih
    have hs : scrollEvents st (k + 1) = scrollEvent (scrollEvents st k) := rfl
    rw [hs]
    unfold scrollEvent
    by_cases ht : (scrollEvents st k).ticking
    · rw [if_pos ht]
      exact ⟨ih1, ih2⟩
    · rw [if_neg ht]
      have h0 : (scrollEvents st k).scheduled = 0 := ih2 (by simpa using ht)
      constructor
      · simp [h0]
      · intro hcontra
        simp at hcontra

theorem revealCallback_no_intersect :
    ∀ (entries : List Entry) (classes : ℕ → List String) (x : ℕ),
      (∀ e ∈ entries, e.elem = x → e.isIntersecting = false) →
      revealCallback entries classes x = classes x := by
  intro entries
  induction entries with
  | nil => intro classes x _; rfl
  | cons e es ih =>
    intro classes x h
    show revealCallback es (revealStep classes e) x = classes x
    rw [ih (revealStep classes e) x (fun e' he' => h e' (List.mem_cons_of_mem e he'))]
    unfold revealStep
    by_cases hi : e.isIntersecting
    · rw [if_pos hi]
      have hne : ¬ x = e.elem := by
        intro hx
        have := h e (List.mem_cons_self e es) hx.symm
        rw [this] at hi
        exact Bool.false_ne_true (by simpa using hi)
      simp [hne]
    · rw [if_neg hi]

theorem runCounterEvents_observed :
    ∀ (b : List Entry) (st : CounterState),
      (runCounterEvents st b).observed = observedAfter st.observed b := by
  intro b
  induction b with
  | nil => intro st; rfl
  | cons e b' ih =>
    intro st
    have hstep : observedAfter st.observed (e :: b')
        = observedAfter
            (if e.isIntersecting then st.observed.erase e.elem else st.observed) b' := rfl
    show (runCounterEvents (counterEvent st e) b').observed
        = observedAfter st.observed (e :: b')
    rw [hstep, ih (counterEvent st e)]
    congr 1
    unfold counterEvent
    split
    next => rfl
    next => rfl

/-- Core invariant for one delivered batch: provided every record of the batch
concerns a target observed when the batch was assembled, and the batch holds
at most one record per target, the callback starts each counter at most once
and leaves observed targets unstarted. -/
theorem runCounterEvents_batch_invariant :
    ∀ (b : List Entry) (st : CounterState),
      b.Pairwise (fun e1 e2 => e1.elem ≠ e2.elem) →
      (∀ e ∈ b, e.elem ∈ st.observed) →
      (∀ x, st.started x ≤ 1 ∧ (x ∈ st.observed → st.started x = 0)) →
      ∀ x, (runCounterEvents st b).started x ≤ 1 ∧
        (x ∈ (runCounterEvents st b).observed →
          (runCounterEvents st b).started x = 0) := by
  intro b
  induction b with
  | nil => intro st _ _ hinv x; exact hinv x
  | cons e b' ih =>
    intro st hpw hmem hinv
    rw [List.pairwise_cons] at hpw
    show ∀ x, (runCounterEvents (counterEvent st e) b').started x ≤ 1 ∧ _
    apply ih (counterEvent st e) hpw.2
    · intro e' he'
      unfold counterEvent
      split
      next =>
        show e'.elem ∈ st.observed.erase e.elem
        exact Finset.mem_erase.mpr
          ⟨Ne.symm (hpw.1 e' he'), hmem e' (List.mem_cons_of_mem e he')⟩
      next => exact hmem e' (List.mem_cons_of_mem e he')
    · intro x
      unfold counterEvent
      split
      next =>
        have h0 : st.started e.elem = 0 :=
          (hinv e.elem).2 (hmem e (List.mem_cons_self e b'))
        constructor
        · show (if x = e.elem then st.started x + 1 else st.started x) ≤ 1
          by_cases hx : x = e.elem
          · rw [if_pos hx, hx, h0]
          · rw [if_neg hx]
            exact (hinv x).1
        · intro hmem'
          show (if x = e.elem then st.started x + 1 else st.started x) = 0
          have hmem'' : x ∈ st.observed.erase e.elem := hmem'
          rw [if_neg (Finset.ne_of_mem_erase hmem'')]
          exact (hinv x).2 (Finset.mem_of_mem_erase hmem'')
      next => exact hinv x

theorem runBatches_started_le :
    ∀ (batches : List (List Entry)) (st : CounterState),
      validDelivery st.observed batches = true →
      (∀ b ∈ batches, b.Pairwise (fun e1 e2 => e1.elem ≠ e2.elem)) →
      (∀ x, st.started x ≤ 1 ∧ (x ∈ st.observed → st.started x = 0)) →
      ∀ x, (runBatches st batches).started x ≤ 1 := by
  intro batches
  induction batches with
  | nil => intro st _ _ hinv x; exact (hinv x).1
  | cons b bs ih =>
    intro st hv hpw hinv x
    unfold validDelivery at hv
    rw [Bool.and_eq_true] at hv
    have hmem : ∀ e ∈ b, e.elem ∈ st.observed := by
      intro e he
      exact of_decide_eq_true (List.all_eq_true.mp hv.1 e he)
    have hinv' := runCounterEvents_batch_invariant b st
      (hpw b (List.mem_cons_self b bs)) hmem hinv
    show (runBatches (runCounterEvents st b) bs).started x ≤ 1
    exact ih (runCounterEvents st b)
      (by rw [runCounterEvents_observed]; exact hv.2)
      (fun b' hb' => hpw b' (List.mem_cons_of_mem b hb')) hinv' x

theorem updateCounter_lt {T : ℕ} {d e : ℚ} (h : counterProgress d e < 1) :
    updateCounter T d e
      = ((⌊easeOutQuart (counterProgress d e) * (T : ℚ)⌋).toNat, true) := by
  simp only [updateCounter]
  rw [if_pos h]

theorem updateCounter_ge {T : ℕ} {d e : ℚ} (h : ¬ counterProgress d e < 1) :
    updateCounter T d e = (T, false) := by
  simp only [updateCounter]
  rw [if_neg h]

theorem parallaxYOffset_sub (speed iH eT h s1 s2 : ℚ) :
    parallaxYOffset speed iH eT h s1 - parallaxYOffset speed iH eT h s2
      = (s1 - s2) * speed := by
  unfold parallaxYOffset parallaxDistance
  ring

theorem slideOffset_sub (iH pT pH s1 s2 : ℚ) (hne : iH + pH ≠ 0) :
    slideOffset iH pT pH s1 - slideOffset iH pT pH s2
      = (s1 - s2) * 30 / (iH + pH) := by
  unfold slideOffset slideProgress
  field_simp
  ring

/-! ## Claims -/

/-- C2, counterexample: the claim's assertion that no duplicate listeners are
attached on repeated invocation fails.  On a document with one parallax
element (desktop, no reduced-motion preference), two invocations of the scan
path leave two scroll listeners attached, not one: there is no idempotent
guard in `initParallax`. -/
theorem scan_attaches_duplicate_listeners :
    (scanN false false true 800 [⟨some (1/2), 100, 50⟩] 2).length = 2 ∧
    ¬ (scanN false false true 800 [⟨some (1/2), 100, 50⟩] 2).length = 1 := by
  constructor
  · rfl
  · intro hcontra
    simp [scanN, initParallax] at hcontra

/-- C2, amended: repeated invocations of the scan path attach duplicate
scroll listeners, and the duplicates are observable in the transforms, because
`getBoundingClientRect` includes the `translateY` a handler has already
written.  On one scroll event an element in range (layout distance `D`) gets
offset `D * speed` from a single listener, but `(D - D * speed) * speed` after
a duplicated second listener — a different value whenever `D * speed ≠ 0`.
Still, the duplicates do not double the animation: the second write damps the
offset and never equals `2 * D * speed` (for `speed ≠ -1`). -/
theorem duplicate_listeners_change_transform (speed H L h s : ℚ)
    (els : List PElem) (ls : List Handler) (hne : els ≠ [])
    (hr1 : |parallaxDistance H L h s| < H * (3/2))
    (hr2 : |parallaxDistance H (L + parallaxDistance H L h s * speed) h s|
        < H * (3/2))
    (hnz : parallaxDistance H L h s * speed ≠ 0)
    (hsm : speed ≠ -1) :
    (initParallax false false true H els ls).length = ls.length + 1 ∧
    parallaxPassN speed H L h s 1 0 = parallaxDistance H L h s * speed ∧
    parallaxPassN speed H L h s 2 0
      = (parallaxDistance H L h s - parallaxDistance H L h s * speed) * speed ∧
    parallaxPassN speed H L h s 2 0 ≠ parallaxPassN speed H L h s 1 0 ∧
    parallaxPassN speed H L h s 2 0 ≠ 2 * parallaxPassN speed H L h s 1 0 := by
  have hpass1 : parallaxPassN speed H L h s 1 0
      = parallaxDistance H L h s * speed := by
    show parallaxPass speed H L h s 0 = _
    unfold parallaxPass
    rw [add_zero, if_pos hr1]
    rfl
  have hpass2 : parallaxPassN speed H L h s 2 0
      = (parallaxDistance H L h s - parallaxDistance H L h s * speed) * speed := by
    show parallaxPass speed H L h s (parallaxPassN speed H L h s 1 0) = _
    rw [hpass1]
    unfold parallaxPass
    rw [if_pos hr2]
    unfold parallaxYOffset parallaxDistance
    ring
  refine ⟨?_, hpass1, hpass2, ?_, ?_⟩
  · cases els with
    | nil => exact absurd rfl hne
    | cons a l => simp [initParallax]
  · rw [hpass1, hpass2]
    intro heq
    have h0 : parallaxDistance H L h s * speed * speed = 0 := by
      linear_combination -heq
    rcases mul_eq_zero.mp h0 with h' | h'
    · exact hnz h'
    · exact hnz (by rw [h', mul_zero])
  · rw [hpass1, hpass2]
    intro heq
    have h0 : parallaxDistance H L h s * speed * (speed + 1) = 0 := by
      linear_combination -heq
    rcases mul_eq_zero.mp h0 with h' | h'
    · exact hnz h'
    · exact hsm (by linarith)

/-- C2, witness: one parallax element with speed `1/2`, viewport height `800`,
layout top `100`, height `50`, at scroll position `0` (layout distance `275`):
one listener writes `137.5`, a duplicated second listener rewrites it to
`68.75`. -/
theorem duplicate_listeners_change_transform_witness :
    ([⟨some (1/2), 100, 50⟩] : List PElem) ≠ [] ∧
    |parallaxDistance 800 100 50 0| < 800 * (3/2) ∧
    |parallaxDistance 800 (100 + parallaxDistance 800 100 50 0 * (1/2)) 50 0|
      < 800 * (3/2) ∧
    parallaxDistance 800 100 50 0 * (1/2) ≠ 0 ∧
    (1/2 : ℚ) ≠ -1 ∧
    ((initParallax false false true 800 [⟨some (1/2), 100, 50⟩] []).length
        = ([] : List Handler).length + 1 ∧
     parallaxPassN (1/2) 800 100 50 0 1 0
        = parallaxDistance 800 100 50 0 * (1/2) ∧
     parallaxPassN (1/2) 800 100 50 0 2 0
        = (parallaxDistance 800 100 50 0
            - parallaxDistance 800 100 50 0 * (1/2)) * (1/2) ∧
     parallaxPassN (1/2) 800 100 50 0 2 0 ≠ parallaxPassN (1/2) 800 100 50 0 1 0 ∧
     parallaxPassN (1/2) 800 100 50 0 2 0
        ≠ 2 * parallaxPassN (1/2) 800 100 50 0 1 0) := by
  have hne : ([⟨some (1/2), 100, 50⟩] : List PElem) ≠ [] := by simp
  have hr1 : |parallaxDistance 800 100 50 0| < 800 * (3/2) := by
    unfold parallaxDistance
    rw [abs_lt]
    constructor <;> norm_num
  have hr2 : |parallaxDistance 800 (100 + parallaxDistance 800 100 50 0 * (1/2)) 50 0|
      < 800 * (3/2) := by
    unfold parallaxDistance
    rw [abs_lt]
    constructor <;> norm_num
  have hnz : parallaxDistance 800 100 50 0 * (1/2) ≠ 0 := by
    unfold parallaxDistance
    norm_num
  have hsm : (1/2 : ℚ) ≠ -1 := by norm_num
  exact ⟨hne, hr1, hr2, hnz, hsm,
    duplicate_listeners_change_transform (1/2) 800 100 50 0
      [⟨some (1/2), 100, 50⟩] [] hne hr1 hr2 hnz hsm⟩

/-- C3, counterexample: no behavior attached by initialization reads the
`data-typing` attribute — the script contains no typing effect, so the claim
that initialization applies a typing effect driven by `data-typing` is false
of this code. -/
theorem data_typing_not_read : "data-typing" ∉ attributesRead := by
  decide

/-- C3, amended: the data attributes read by behavior attached during
initialization are exactly `data-speed` and `data-counter`; `data-typing` is
not among them and no typing effect is installed. -/
theorem attributes_read_no_typing :
    attributesRead = ["data-speed", "data-counter"] ∧
    "data-typing" ∉ attributesRead := by
  constructor
  · rfl
  · decide

/-- C4: between two consecutive animation-frame callbacks, any number of
scroll events delivered to the `rafCallback`-wrapped handler schedules at most
one recomputation: after a frame callback fires, `n` scroll events make at
most one `requestAnimationFrame` call. -/
theorem raf_throttle_at_most_one (st : RafState) (n : ℕ) :
    (scrollEvents (frameFired st) n).scheduled ≤ 1 :=
  (scrollEvents_invariant (frameFired st) (Nat.zero_le 1) (fun _ => rfl) n).1

/-- C5: a parallax element whose `data-speed` attribute is missing or does not
parse as a number gets the fallback speed `0.1 = 1/10`; and when the document
contains no `.parallax-element`, `initParallax` returns with the listener list
unchanged — a silent no-op, with no error value in the model's codomain. -/
theorem speed_fallback_and_empty_noop :
    speedOf none = 1/10 ∧
    ∀ (r m e : Bool) (iH : ℚ) (ls : List Handler),
      initParallax r m e iH [] ls = ls := by
  constructor
  · rfl
  · intro r m e iH ls
    unfold initParallax
    split
    · rfl
    · rfl

/-- C7: whenever `handleParallax` writes a transform for an element, the
written `translateY` offset is a linear function of the scroll position `s`
scaled by the element's speed: `y = speed * s + speed * c` for the constant
`c = innerHeight / 2 - elementTop - height / 2` fixed by the element's
geometry. -/
theorem parallax_offset_linear (speed iH eT h s y : ℚ)
    (hw : parallaxStep speed iH eT h none s = some y) :
    y = speed * s + speed * (iH / 2 - eT - h / 2) := by
  unfold parallaxStep at hw
  split at hw
  · have hy : parallaxYOffset speed iH eT h s = y := by
      injection hw
    rw [← hy]
    unfold parallaxYOffset parallaxDistance
    ring
  · exact absurd hw (by simp)

/-- C7, witness: with speed `1/2`, viewport height `800`, element top `100`,
element height `50`, at scroll position `0` the write happens and equals the
linear form. -/
theorem parallax_offset_linear_witness :
    parallaxStep (1/2) 800 100 50 none 0 = some (275/2) ∧
    (275/2 : ℚ) = 1/2 * 0 + 1/2 * (800 / 2 - 100 - 50 / 2) := by
  have hw : parallaxStep (1/2) 800 100 50 none 0 = some (275/2) := by
    unfold parallaxStep
    have hcond : |parallaxDistance 800 100 50 0| < 800 * (3/2) := by
      unfold parallaxDistance
      rw [abs_lt]
      constructor <;> norm_num
    rw [if_pos hcond]
    unfold parallaxYOffset parallaxDistance
    norm_num
  exact ⟨hw, parallax_offset_linear (1/2) 800 100 50 0 (275/2) hw⟩

/-- C9: a `data-speed` attribute that parses to exactly `0` still yields the
fallback `0.1`, because `0` is falsy in `parseFloat(...) || 0.1`; consequently
no parse result can configure a parallax speed of `0`. -/
theorem speed_zero_impossible :
    speedOf (some 0) = 1/10 ∧ ∀ parsed, speedOf parsed ≠ 0 := by
  refine ⟨rfl, ?_⟩
  intro parsed
  match parsed with
  | none => norm_num [speedOf]
  | some v =>
    by_cases hv : v = 0
    · simp [speedOf, hv]
    · simp [speedOf, hv]

/-- C1: for a counter with non-negative integer target `T` and positive
duration, the displayed value is `0` at elapsed time `0`, is non-decreasing in
the elapsed time (hence across frames with non-decreasing timestamps), and once
the elapsed time reaches the duration the frame displays exactly `T` and
requests no further animation frame. -/
theorem counter_nondecreasing_completes (T : ℕ) (d e1 e2 : ℚ)
    (hd : 0 < d) (h1 : 0 ≤ e1) (h12 : e1 ≤ e2) :
    (updateCounter T d 0).1 = 0 ∧
    (updateCounter T d e1).1 ≤ (updateCounter T d e2).1 ∧
    (d ≤ e2 → updateCounter T d e2 = (T, false)) := by
  have hp0 : counterProgress d 0 = 0 := by
    unfold counterProgress
    rw [zero_div]
    exact min_eq_left zero_le_one
  refine ⟨?_, ?_, ?_⟩
  · have h0lt : counterProgress d 0 < 1 := by
      rw [hp0]
      norm_num
    rw [updateCounter_lt h0lt, hp0]
    norm_num [easeOutQuart]
  · have hmono : counterProgress d e1 ≤ counterProgress d e2 :=
      counterProgress_mono hd h12
    by_cases h2 : counterProgress d e2 < 1
    · have h1lt : counterProgress d e1 < 1 := lt_of_le_of_lt hmono h2
      rw [updateCounter_lt h1lt, updateCounter_lt h2]
      apply Int.toNat_le_toNat
      apply Int.floor_le_floor
      exact mul_le_mul_of_nonneg_right
        (easeOutQuart_mono hmono counterProgress_le_one) (Nat.cast_nonneg T)
    · rw [updateCounter_ge h2]
      by_cases h1lt : counterProgress d e1 < 1
      · rw [updateCounter_lt h1lt]
        exact counter_value_le
      · rw [updateCounter_ge h1lt]
  · intro hde
    have hp1 : counterProgress d e2 = 1 := by
      unfold counterProgress
      rw [min_eq_right ((one_le_div hd).mpr hde)]
    exact updateCounter_ge (by rw [hp1]; exact lt_irrefl 1)

/-- C1, witness: target `100`, duration `2000`, elapsed times `0 ≤ 500`. -/
theorem counter_nondecreasing_completes_witness :
    (0:ℚ) < 2000 ∧ (0:ℚ) ≤ 0 ∧ (0:ℚ) ≤ 500 ∧
    ((updateCounter 100 2000 0).1 = 0 ∧
     (updateCounter 100 2000 0).1 ≤ (updateCounter 100 2000 500).1 ∧
     ((2000:ℚ) ≤ 500 → updateCounter 100 2000 500 = (100, false))) :=
  ⟨by norm_num, le_refl 0, by norm_num,
   counter_nondecreasing_completes 100 2000 0 500 (by norm_num) (le_refl 0)
     (by norm_num)⟩

/-- C6: the reveal observer callback adds the state classes `is-visible` and
`active` only to targets reported as intersecting; an element none of whose
entries is intersecting (in particular one that never crosses the viewport
threshold, for which the observer reports nothing or only non-intersecting
entries) never receives either class. -/
theorem reveal_only_on_intersection (entries : List Entry)
    (classes : ℕ → List String) (x : ℕ)
    (hnever : ∀ e ∈ entries, e.elem = x → e.isIntersecting = false)
    (hinit : "active" ∉ classes x ∧ "is-visible" ∉ classes x) :
    "active" ∉ revealCallback entries classes x ∧
    "is-visible" ∉ revealCallback entries classes x := by
  rw [revealCallback_no_intersect entries classes x hnever]
  exact hinit

/-- C6, witness: element `0` is never reported intersecting while element `1`
is revealed; element `0` ends with neither state class. -/
theorem reveal_only_on_intersection_witness :
    (∀ e ∈ ([⟨1, true⟩, ⟨0, false⟩] : List Entry),
        e.elem = 0 → e.isIntersecting = false) ∧
    ("active" ∉ ([] : List String) ∧ "is-visible" ∉ ([] : List String)) ∧
    ("active" ∉ revealCallback [⟨1, true⟩, ⟨0, false⟩] (fun _ => []) 0 ∧
     "is-visible" ∉ revealCallback [⟨1, true⟩, ⟨0, false⟩] (fun _ => []) 0) := by
  have hnever : ∀ e ∈ ([⟨1, true⟩, ⟨0, false⟩] : List Entry),
      e.elem = 0 → e.isIntersecting = false := by decide
  have hinit : "active" ∉ ([] : List String) ∧ "is-visible" ∉ ([] : List String) := by
    simp
  exact ⟨hnever, hinit,
    reveal_only_on_intersection [⟨1, true⟩, ⟨0, false⟩] (fun _ => []) 0 hnever hinit⟩

/-- C8, counterexample: the claim includes continuity "across the boundary
where an element enters the animated range", and there the program is
discontinuous.  An element with no prior transform (displayed offset `0`,
speed `1/10`, viewport height `800`, layout top `1600`, height `50`): at
scroll position `25` the distance is exactly `-1200 = -1.5 * 800`, out of
range, so nothing is written; at scroll position `25001/1000` — a change of
only `1/1000` — the element is in range and receives offset `-119.9999`, a
jump of almost `120` pixels. -/
theorem parallax_entry_jump :
    parallaxPass (1/10) 800 1600 50 25 0 = 0 ∧
    parallaxPass (1/10) 800 1600 50 (25001/1000) 0 = -1199999/10000 ∧
    |(25001/1000 : ℚ) - 25| = 1/1000 ∧
    (100 : ℚ) < |(-1199999/10000 : ℚ) - 0| := by
  refine ⟨?_, ?_, ?_, ?_⟩
  · apply parallaxPass_out
    have hd : parallaxDistance 800 (1600 + 0) 50 25 = -1200 := by
      unfold parallaxDistance
      norm_num
    rw [hd, abs_of_neg (by norm_num : (-1200 : ℚ) < 0)]
    norm_num
  · have hd : parallaxDistance 800 (1600 + 0) 50 (25001/1000) = -1199999/1000 := by
      unfold parallaxDistance
      norm_num
    have hin : |parallaxDistance 800 (1600 + 0) 50 (25001/1000)| < 800 * (3/2) := by
      rw [hd, abs_of_neg (by norm_num : (-1199999/1000 : ℚ) < 0)]
      norm_num
    rw [parallaxPass_in hin]
    unfold parallaxYOffset parallaxDistance
    norm_num
  · rw [show (25001/1000 : ℚ) - 25 = 1/1000 by norm_num,
      abs_of_pos (by norm_num : (0:ℚ) < 1/1000)]
  · rw [sub_zero, abs_of_neg (by norm_num : (-1199999/10000 : ℚ) < 0)]
    norm_num

/-- C8, amended: for fixed as-read element geometry the computed parallax and
background-slide offsets are continuous functions of the scroll position (for
every `ε > 0` there is a `δ > 0` with offsets within `ε` whenever scroll
positions are within `δ`), and while an element is outside the animated range
a handler pass writes nothing, keeping the previous transform exactly (no jump
on leaving the range).  Continuity does not extend across the boundary where
an element first enters the animated range: there the displayed offset jumps
from `0` to about `±1.5 * innerHeight * speed` (see the counterexample). -/
theorem offsets_formula_continuous (speed iH eT h pT pH ε : ℚ)
    (hε : 0 < ε) (hgeom : 0 < iH + pH) :
    (∃ δ, 0 < δ ∧ ∀ s1 s2, |s1 - s2| < δ →
        |parallaxYOffset speed iH eT h s1 - parallaxYOffset speed iH eT h s2| < ε) ∧
    (∃ δ, 0 < δ ∧ ∀ s1 s2, |s1 - s2| < δ →
        |slideOffset iH pT pH s1 - slideOffset iH pT pH s2| < ε) ∧
    (∀ L y s, ¬ |parallaxDistance iH (L + y) h s| < iH * (3/2) →
        parallaxPass speed iH L h s y = y) := by
  refine ⟨⟨ε / (|speed| + 1), by positivity, ?_⟩,
    ⟨ε * (iH + pH) / 30, by positivity, ?_⟩, ?_⟩
  · intro s1 s2 hs
    rw [parallaxYOffset_sub, abs_mul]
    have hsp : (0:ℚ) < |speed| + 1 := by positivity
    have h2 : |s1 - s2| * (|speed| + 1) < ε := (lt_div_iff₀ hsp).mp hs
    have h3 : |s1 - s2| * |speed| ≤ |s1 - s2| * (|speed| + 1) :=
      mul_le_mul_of_nonneg_left (by linarith) (abs_nonneg _)
    linarith
  · intro s1 s2 hs
    rw [slideOffset_sub iH pT pH s1 s2 (ne_of_gt hgeom), abs_div, abs_mul]
    have h30 : |(30:ℚ)| = 30 := by norm_num
    rw [h30, abs_of_pos hgeom, div_lt_iff₀ hgeom]
    have h4 : |s1 - s2| * 30 < ε * (iH + pH) :=
      (lt_div_iff₀ (by norm_num : (0:ℚ) < 30)).mp hs
    linarith
  · intro L y s hout
    exact parallaxPass_out hout

/-- C8, witness: speed `1/2`, viewport height `800`, element top `100`, height
`50`, section top `0`, section height `200`, at `ε = 1`. -/
theorem offsets_formula_continuous_witness :
    (0:ℚ) < 1 ∧ (0:ℚ) < 800 + 200 ∧
    ((∃ δ, 0 < δ ∧ ∀ s1 s2 : ℚ, |s1 - s2| < δ →
        |parallaxYOffset (1/2) 800 100 50 s1 - parallaxYOffset (1/2) 800 100 50 s2| < 1) ∧
     (∃ δ, 0 < δ ∧ ∀ s1 s2 : ℚ, |s1 - s2| < δ →
        |slideOffset 800 0 200 s1 - slideOffset 800 0 200 s2| < 1) ∧
     (∀ L y s : ℚ, ¬ |parallaxDistance 800 (L + y) 50 s| < 800 * (3/2) →
        parallaxPass (1/2) 800 L 50 s y = y)) :=
  ⟨by norm_num, by norm_num,
   offsets_formula_continuous (1/2) 800 100 50 0 200 1 (by norm_num) (by norm_num)⟩

/-- C10, counterexample: the source callback has no guard against processing
two records for the same target, and `unobserve` cannot retract records
already in the delivered batch.  `IntersectionObserver` may coalesce several
records for one target into a single batch; on such a batch (two intersecting
records for element `0`) the callback starts the counter animation twice,
refuting "later intersection events never restart or re-run the counter". -/
theorem counter_double_start :
    (runCounterEvents (initCounterState {0}) [⟨0, true⟩, ⟨0, true⟩]).started 0 = 2 := by
  rfl

/-- C10, amended: after the first delivered intersecting record starts an
element's counter, the element is unobserved, so batches delivered afterwards
carry no records for it and never restart it; hence every counter is started
at most once provided each delivered batch holds at most one record per
target.  When a batch coalesces several intersecting records for one target,
the callback starts the counter once per record (see the counterexample). -/
theorem counter_started_at_most_once (counters : Finset ℕ)
    (batches : List (List Entry)) (x : ℕ)
    (hvalid : validDelivery counters batches = true)
    (hnodup : ∀ b ∈ batches, b.Pairwise (fun e1 e2 => e1.elem ≠ e2.elem)) :
    (runBatches (initCounterState counters) batches).started x ≤ 1 :=
  runBatches_started_le batches (initCounterState counters) hvalid hnodup
    (fun _ => ⟨Nat.zero_le 1, fun _ => rfl⟩) x

/-- C10, witness: counters `{0, 1}`; the first batch reveals `0` and reports
`1` not intersecting, a later batch reveals `1`; each counter starts at most
once. -/
theorem counter_started_at_most_once_witness :
    validDelivery {0, 1} [[⟨0, true⟩, ⟨1, false⟩], [⟨1, true⟩]] = true ∧
    (∀ b ∈ ([[⟨0, true⟩, ⟨1, false⟩], [⟨1, true⟩]] : List (List Entry)),
        b.Pairwise (fun e1 e2 => e1.elem ≠ e2.elem)) ∧
    (runBatches (initCounterState {0, 1})
        [[⟨0, true⟩, ⟨1, false⟩], [⟨1, true⟩]]).started 0 ≤ 1 := by
  have hv : validDelivery {0, 1} [[⟨0, true⟩, ⟨1, false⟩], [⟨1, true⟩]] = true := by
    decide
  have hp : ∀ b ∈ ([[⟨0, true⟩, ⟨1, false⟩], [⟨1, true⟩]] : List (List Entry)),
      b.Pairwise (fun e1 e2 => e1.elem ≠ e2.elem) := by
    decide
  exact ⟨hv, hp, counter_started_at_most_once {0, 1} _ 0 hv hp⟩

end Animations
